import Mathlib

/-!
# GoTracing rendering core — shallow embedding

A shallow embedding of the GoTracing rendering core: the vector/ray algebra
(`pkg/geometry`), the per-shape intersection routines, the scene query
(`pkg/scene`), the Phong shading model (`pkg/material`), the utility helpers
(`pkg/utility`) and the recursive tracer / per-pixel sampler
(`pkg/raytracer`).  Go `float64` values are modelled as real numbers; Go's
`nil` results become `Option`.  Methods whose bodies are not in the sources
(`Ray.Reflect`, `Ray.Refract`, `Color` arithmetic, `Camera.GetRay`) are
modelled from the specification and say so in their doc comments.
-/

noncomputable section

/-- 3D vector, from `geometry.Vector` (three `float64` fields). -/
structure Vec where
  x : ℝ
  y : ℝ
  z : ℝ

namespace Vec

/-- `Vector.Add`. -/
def add (v w : Vec) : Vec := ⟨v.x + w.x, v.y + w.y, v.z + w.z⟩

/-- `Vector.Subtract`. -/
def sub (v w : Vec) : Vec := ⟨v.x - w.x, v.y - w.y, v.z - w.z⟩

/-- `Vector.Scale`. -/
def scale (v : Vec) (s : ℝ) : Vec := ⟨v.x * s, v.y * s, v.z * s⟩

/-- `Vector.Dot`. -/
def dot (v w : Vec) : ℝ := v.x * w.x + v.y * w.y + v.z * w.z

/-- `Vector.Cross`. -/
def cross (v w : Vec) : Vec :=
  ⟨v.y * w.z - v.z * w.y, v.z * w.x - v.x * w.z, v.x * w.y - v.y * w.x⟩

/-- `Vector.Length`. -/
def length (v : Vec) : ℝ := Real.sqrt (v.x * v.x + v.y * v.y + v.z * v.z)

/-- `Vector.Normalize` (divides by the length; the Go code does not guard
the zero-length case, and real division by zero yields zero here). -/
def normalize (v : Vec) : Vec :=
  ⟨v.x / v.length, v.y / v.length, v.z / v.length⟩

/-- Modelled from the spec: `Vector.Negate` is called by the shading code but
its body is not among the sources; componentwise negation. -/
def neg (v : Vec) : Vec := ⟨-v.x, -v.y, -v.z⟩

end Vec

/-- RGB color, from `material.Color`. -/
structure Color where
  r : ℝ
  g : ℝ
  b : ℝ

namespace Color

/-- Modelled from the spec: `Color.Add` is called by the shading and tracing
code but its body is not among the sources; colors combine additively,
componentwise. -/
def add (c d : Color) : Color := ⟨c.r + d.r, c.g + d.g, c.b + d.b⟩

/-- Modelled from the spec: `Color.Scale` is called by the shading and
tracing code but its body is not among the sources; componentwise scaling. -/
def scale (c : Color) (s : ℝ) : Color := ⟨c.r * s, c.g * s, c.b * s⟩

end Color

/-- Surface appearance, from `material.Material`. -/
structure Material where
  color : Color
  reflectivity : ℝ
  transparency : ℝ
  refractiveIndex : ℝ
  ambientCoefficient : ℝ
  diffuseCoefficient : ℝ
  specularCoefficient : ℝ
  shininess : ℝ

/-- Point light, from `material.Light` (position and color). -/
structure Light where
  position : Vec
  color : Color

/-- A ray, from `geometry.Ray`: origin and direction. -/
structure Ray where
  origin : Vec
  dir : Vec

/-- `Ray.At`: `origin + t·direction`. -/
def Ray.at (ray : Ray) (t : ℝ) : Vec := ray.origin.add (ray.dir.scale t)

/-- The closed set of shape variants, each with its geometric data and its
material (`geometry.Sphere`, `Plane`, `Triangle`, `Cylinder`, `Cube`). -/
inductive Object where
  | sphere (center : Vec) (radius : ℝ) (mat : Material)
  | plane (point : Vec) (normal : Vec) (mat : Material)
  | triangle (v0 v1 v2 : Vec) (mat : Material)
  | cylinder (center : Vec) (radius : ℝ) (mat : Material)
  | cube (center : Vec) (sideLength : ℝ) (mat : Material)

/-- `Object.Material()` of each variant. -/
def Object.material : Object → Material
  | .sphere _ _ m => m
  | .plane _ _ m => m
  | .triangle _ _ _ m => m
  | .cylinder _ _ m => m
  | .cube _ _ m => m

/-- A ray-object intersection, from `geometry.Hit`: position, surface normal
and ray parameter.  The Go struct also stores a back-reference to the hit
object; the scene query below returns the object alongside the hit, so the
back-reference is not duplicated here. -/
structure Hit where
  position : Vec
  normal : Vec
  t : ℝ

/-- `Sphere.Intersect`: quadratic test.  Note the Go code returns the smaller
root `(-b - sqrt(disc)) / (2a)` unconditionally once the discriminant is
non-negative — there is no sign or epsilon check on `t`. -/
def sphereIntersect (center : Vec) (radius : ℝ) (ray : Ray) : Option Hit :=
  let oc := ray.origin.sub center
  let a := ray.dir.dot ray.dir
  let b := 2 * oc.dot ray.dir
  let c := oc.dot oc - radius * radius
  let disc := b * b - 4 * a * c
  if disc < 0 then none
  else
    let t := (-b - Real.sqrt disc) / (2 * a)
    let position := ray.at t
    some ⟨position, (position.sub center).normalize, t⟩

/-- `Plane.Intersect`: rejects near-parallel rays (`|denom| ≤ 1e-4`) and
negative `t`; the returned normal is the plane's stored normal. -/
def planeIntersect (point normal : Vec) (ray : Ray) : Option Hit :=
  let denom := normal.dot ray.dir
  if |denom| > 0.0001 then
    let t := (point.sub ray.origin).dot normal / denom
    if 0 ≤ t then some ⟨ray.at t, normal, t⟩ else none
  else none

/-- `Triangle.Intersect`: Möller–Trumbore. -/
def triangleIntersect (v0 v1 v2 : Vec) (ray : Ray) : Option Hit :=
  let edge1 := v1.sub v0
  let edge2 := v2.sub v0
  let h := ray.dir.cross edge2
  let a := edge1.dot h
  if |a| < 0.0001 then none
  else
    let f := 1 / a
    let s := ray.origin.sub v0
    let u := f * s.dot h
    if u < 0 ∨ u > 1 then none
    else
      let q := s.cross edge1
      let v := f * ray.dir.dot q
      if v < 0 ∨ u + v > 1 then none
      else
        let tt := f * edge2.dot q
        if tt > 0.0001 then
          some ⟨ray.at tt, (edge1.cross edge2).normalize, tt⟩
        else none

/-- `Cylinder.Intersect` (infinite cylinder along the y-axis): quadratic on
the x/z components.  As with the sphere, the Go code has no sign or epsilon
check on `t`, and the division by `2a` is unguarded: an axis-parallel ray
gives `a = 0` and `disc = b² ≥ 0`, so a hit is still returned. -/
def cylinderIntersect (center : Vec) (radius : ℝ) (ray : Ray) : Option Hit :=
  let oc0 := ray.origin.sub center
  let oc : Vec := ⟨oc0.x, 0, oc0.z⟩
  let a := ray.dir.x * ray.dir.x + ray.dir.z * ray.dir.z
  let b := 2 * oc.dot ray.dir
  let cval := oc.dot oc - radius * radius
  let disc := b * b - 4 * a * cval
  if disc < 0 then none
  else
    let t := (-b - Real.sqrt disc) / (2 * a)
    let position := ray.at t
    let n0 := position.sub center
    some ⟨position, Vec.normalize ⟨n0.x, 0, n0.z⟩, t⟩

/-- Minimum corner of a cube (`Center - (L/2,L/2,L/2)`). -/
def cubeMin (center : Vec) (sideLength : ℝ) : Vec :=
  center.sub ⟨sideLength / 2, sideLength / 2, sideLength / 2⟩

/-- Maximum corner of a cube (`Center + (L/2,L/2,L/2)`). -/
def cubeMax (center : Vec) (sideLength : ℝ) : Vec :=
  center.add ⟨sideLength / 2, sideLength / 2, sideLength / 2⟩

/-- One axis of the slab test: entry/exit parameters, swapped into order. -/
def axisSlab (mn mx o d : ℝ) : ℝ × ℝ :=
  let t1 := (mn - o) / d
  let t2 := (mx - o) / d
  if t1 > t2 then (t2, t1) else (t1, t2)

/-- The slab-interval part of `Cube.Intersect`: per-axis entry/exit
parameters merged across the three axes, with the code's two overlap
checks; `none` on a miss, otherwise the final `(tmin, tmax)`. -/
def cubeSlabs (center : Vec) (sideLength : ℝ) (ray : Ray) : Option (ℝ × ℝ) :=
  let mn := cubeMin center sideLength
  let mx := cubeMax center sideLength
  let px := axisSlab mn.x mx.x ray.origin.x ray.dir.x
  let py := axisSlab mn.y mx.y ray.origin.y ray.dir.y
  if px.1 > py.2 ∨ py.1 > px.2 then none
  else
    let tmin1 := if py.1 > px.1 then py.1 else px.1
    let tmax1 := if py.2 < px.2 then py.2 else px.2
    let pz := axisSlab mn.z mx.z ray.origin.z ray.dir.z
    if tmin1 > pz.2 ∨ pz.1 > tmax1 then none
    else
      let tmin2 := if pz.1 > tmin1 then pz.1 else tmin1
      let tmax2 := if pz.2 < tmax1 then pz.2 else tmax1
      some (tmin2, tmax2)

/-- The six candidate faces of `Cube.NormalAt`: the Go code keeps two
parallel arrays (`normals` and `sides`, indexed together and reduced by an
argmin loop over the index); they are modelled as one list of
(normal, distance-to-face) pairs reduced by the same first-minimum fold. -/
def faceCandidates (center : Vec) (sideLength : ℝ) (p : Vec) : List (Vec × ℝ) :=
  let mn := cubeMin center sideLength
  let mx := cubeMax center sideLength
  [(⟨-1, 0, 0⟩, |mn.x - p.x|), (⟨1, 0, 0⟩, |mx.x - p.x|),
   (⟨0, -1, 0⟩, |mn.y - p.y|), (⟨0, 1, 0⟩, |mx.y - p.y|),
   (⟨0, 0, -1⟩, |mn.z - p.z|), (⟨0, 0, 1⟩, |mx.z - p.z|)]

/-- The argmin loop of `Cube.NormalAt`: start from the first candidate and
replace it only on a strictly smaller distance (first minimum wins). -/
def selectFace : List (Vec × ℝ) → Vec × ℝ
  | [] => (⟨0, 0, 0⟩, 0)
  | c :: rest => rest.foldl (fun acc d => if d.2 < acc.2 then d else acc) c

/-- `Cube.NormalAt`: the normal of the closest face. -/
def cubeNormalAt (center : Vec) (sideLength : ℝ) (p : Vec) : Vec :=
  (selectFace (faceCandidates center sideLength p)).1

/-- The six axis-aligned unit normals of `Cube.NormalAt`. -/
def sixNormals : List Vec :=
  [⟨-1, 0, 0⟩, ⟨1, 0, 0⟩, ⟨0, -1, 0⟩, ⟨0, 1, 0⟩, ⟨0, 0, -1⟩, ⟨0, 0, 1⟩]

/-- `Cube.Intersect`: slab test, then `t = tmin` if non-negative, else
`tmax` if non-negative, else no hit; normal from `Cube.NormalAt`. -/
def cubeIntersect (center : Vec) (sideLength : ℝ) (ray : Ray) : Option Hit :=
  match cubeSlabs center sideLength ray with
  | none => none
  | some (tmin, tmax) =>
    let t := if tmin < 0 then tmax else tmin
    if t < 0 then none
    else some ⟨ray.at t, cubeNormalAt center sideLength (ray.at t), t⟩

/-- `Object.Intersect` dispatch over the shape variants. -/
def Object.intersect : Object → Ray → Option Hit
  | .sphere c r _, ray => sphereIntersect c r ray
  | .plane p n _, ray => planeIntersect p n ray
  | .triangle a b c _, ray => triangleIntersect a b c ray
  | .cylinder c r _, ray => cylinderIntersect c r ray
  | .cube c l _, ray => cubeIntersect c l ray

/-- Scene contents, from `scene.Scene` (the camera is passed to the
renderer separately below). -/
structure Scene where
  objects : List Object
  lights : List Light

/-- One step of `Scene.FindClosestIntersection`'s loop: keep the incoming
best unless this object hits strictly closer (`hit.T < closestDistance`,
where the initial distance is `+∞`, so a first hit always wins). -/
def findStep (ray : Ray) (acc : Option (Hit × Object)) (o : Object) :
    Option (Hit × Object) :=
  match o.intersect ray with
  | none => acc
  | some h =>
    match acc with
    | none => some (h, o)
    | some (hb, ob) => if h.t < hb.t then some (h, o) else some (hb, ob)

/-- `Scene.FindClosestIntersection`: fold the loop step over the shape list. -/
def findClosestIntersection (s : Scene) (ray : Ray) : Option (Hit × Object) :=
  s.objects.foldl (findStep ray) none

/-- `utility.Clamp`. -/
def clampVal (value mn mx : ℝ) : ℝ :=
  if value < mn then mn else if value > mx then mx else value

/-- `utility.Reflect`: `v - n·(2(v·n))`. -/
def reflectVec (v n : Vec) : Vec := v.sub (n.scale (2 * v.dot n))

/-- The refraction discriminant of `utility.Refract`:
`1 - ri²·(1 - (v·n)²)`. -/
def refractDisc (v n : Vec) (ri : ℝ) : ℝ :=
  1 - ri * ri * (1 - v.dot n * (v.dot n))

/-- The refracted direction of `utility.Refract` (its positive-discriminant
branch): `v·ri - n·(ri·(v·n) + sqrt(disc))`. -/
def refractVec (v n : Vec) (ri : ℝ) : Vec :=
  (v.scale ri).sub (n.scale (ri * v.dot n + Real.sqrt (refractDisc v n ri)))

/-- Modelled from the spec: `Ray.Reflect` is called by the tracer but its
body is not among the sources; per §4.5 the reflected ray starts at the hit
point along the mirror reflection (`utility.Reflect`) of the incoming
direction about the surface normal. -/
def rayReflect (ray : Ray) (hit : Hit) : Ray :=
  ⟨hit.position, reflectVec ray.dir hit.normal⟩

/-- Modelled from the spec: `Ray.Refract` is called by the tracer but its
body is not among the sources; per §4.5 it computes the Snell refraction via
`utility.Refract` (total internal reflection exactly when the discriminant
is ≤ 0, matching `utility.Refract`'s `disc > 0` branch), and on total
internal reflection the ray is the internal reflection instead.  Both rays
start at the hit point.  The `inside` flag does not enter the formula (the
sources give it no other consumer). -/
def rayRefract (ray : Ray) (hit : Hit) (ri : ℝ) (_inside : Bool) : Ray × Bool :=
  if 0 < refractDisc ray.dir hit.normal ri then
    (⟨hit.position, refractVec ray.dir hit.normal ri⟩, false)
  else
    (⟨hit.position, reflectVec ray.dir hit.normal⟩, true)

/-- The per-light contribution of `Material.ComputeColor`'s loop body:
diffuse plus specular, scaled by the inverse-linear attenuation. -/
def lightContribution (m : Material) (hit : Hit) (ray : Ray) (light : Light) : Color :=
  let lightDirection0 := light.position.sub hit.position
  let distance := lightDirection0.length
  let lightDirection := lightDirection0.normalize
  let attenuation := 1 / (1 + 0.1 * distance)
  let diffuse := m.color.scale (m.diffuseCoefficient * max 0 (hit.normal.dot lightDirection))
  let reflectDirection := reflectVec lightDirection.neg hit.normal
  let viewDirection := ray.dir.neg
  let specular := light.color.scale
    (m.specularCoefficient * Real.rpow (max 0 (viewDirection.dot reflectDirection)) m.shininess)
  (diffuse.add specular).scale attenuation

/-- `Material.ComputeColor`: ambient base, the loop accumulating each
light's contribution, then the final per-component `min 1` clamp. -/
def computeColor (m : Material) (hit : Hit) (s : Scene) (ray : Ray) : Color :=
  let c := s.lights.foldl (fun acc light => acc.add (lightContribution m hit ray light))
    (m.color.scale m.ambientCoefficient)
  ⟨min 1 c.r, min 1 c.g, min 1 c.b⟩

/-- `Raytracer.traceRay`: depth-bounded recursion — black at exhausted
depth or on a miss, otherwise local shading plus reflectivity- and
transparency-weighted recursive contributions.  The Go `Render` invokes it
without an `inside` argument (the method takes one); the initial flag is
taken to be `false`. -/
def traceRay (s : Scene) (ray : Ray) (depth : ℤ) (inside : Bool) : Color :=
  if _h : depth ≤ 0 then ⟨0, 0, 0⟩
  else
    match findClosestIntersection s ray with
    | none => ⟨0, 0, 0⟩
    | some (hit, obj) =>
      let c0 := computeColor obj.material hit s ray
      let c1 :=
        if 0 < obj.material.reflectivity then
          c0.add ((traceRay s (rayReflect ray hit) (depth - 1) inside).scale
            obj.material.reflectivity)
        else c0
      if 0 < obj.material.transparency then
        let rr := rayRefract ray hit obj.material.refractiveIndex inside
        if rr.2 then
          c1.add ((traceRay s rr.1 (depth - 1) inside).scale obj.material.transparency)
        else
          c1.add ((traceRay s rr.1 (depth - 1) (!inside)).scale obj.material.transparency)
      else c1
  termination_by depth.toNat
  decreasing_by all_goals omega

/-- The value of `hitColor` in `traceRay` just before the transparency
branch: local shading plus the reflectivity contribution, if any. -/
def shadePlusReflect (s : Scene) (ray : Ray) (depth : ℤ) (inside : Bool)
    (hit : Hit) (obj : Object) : Color :=
  let c0 := computeColor obj.material hit s ray
  if 0 < obj.material.reflectivity then
    c0.add ((traceRay s (rayReflect ray hit) (depth - 1) inside).scale
      obj.material.reflectivity)
  else c0

/-- 8-bit RGBA pixel value, the element type of the output buffer
(`image.RGBA` slot).  A freshly allocated buffer slot is `⟨0, 0, 0, 0⟩`. -/
structure RGBA where
  r : ℕ
  g : ℕ
  b : ℕ
  a : ℕ

/-- `utility.ConvertColorToUint8` (the body of `Color.ToRGBA` per §4.6):
each channel is clamped to `[0,1]`, scaled by `255.999` and truncated to an
8-bit integer; alpha is fully opaque. -/
def toRGBA (c : Color) : RGBA :=
  ⟨(⌊255.999 * clampVal c.r 0 1⌋).toNat, (⌊255.999 * clampVal c.g 0 1⌋).toNat,
   (⌊255.999 * clampVal c.b 0 1⌋).toNat, 255⟩

/-- The sample loop of `Raytracer.Render`'s per-pixel goroutine.  `cam` is
the camera's `GetRay` (modelled from the spec: `GetRay(u, v) -> Ray`, with
an error — `none` — only on an invalid camera configuration); `jitter`
supplies the two `utility.Random()` draws of each sample.  On a `GetRay`
error the Go code executes `return` inside the goroutine, abandoning the
remaining samples and the pixel write: that early exit is the `none`
result. -/
def sampleLoop (cam : ℝ → ℝ → Option Ray) (s : Scene) (maxDepth : ℤ)
    (jitter : ℕ → ℝ × ℝ) (width height x y : ℕ) :
    ℕ → ℕ → Color → Option Color
  | _, 0, acc => some acc
  | idx, remaining + 1, acc =>
    let u := ((x : ℝ) + (jitter idx).1) / ((width : ℝ) - 1)
    let v := ((y : ℝ) + (jitter idx).2) / ((height : ℝ) - 1)
    match cam u v with
    | none => none
    | some ray =>
      sampleLoop cam s maxDepth jitter width height x y (idx + 1) remaining
        (acc.add (traceRay s ray maxDepth false))

/-- The color a pixel's goroutine would write: the accumulated samples
scaled by `1/Samples`, or `none` when a `GetRay` error aborted the
goroutine before the write. -/
def renderPixel (cam : ℝ → ℝ → Option Ray) (s : Scene) (maxDepth : ℤ)
    (jitter : ℕ → ℝ × ℝ) (width height x y samples : ℕ) : Option Color :=
  (sampleLoop cam s maxDepth jitter width height x y 0 samples ⟨0, 0, 0⟩).map
    (fun c => c.scale (1 / (samples : ℝ)))

/-- The final content of the pixel's buffer slot: the written RGBA value,
or the untouched zero value when the goroutine returned early. -/
def renderPixelSlot (cam : ℝ → ℝ → Option Ray) (s : Scene) (maxDepth : ℤ)
    (jitter : ℕ → ℝ × ℝ) (width height x y samples : ℕ) : RGBA :=
  match renderPixel cam s maxDepth jitter width height x y samples with
  | none => ⟨0, 0, 0, 0⟩
  | some c => toRGBA c

/-- The shading formula exactly as §4.4 of the specification words it, for
comparison with `computeColor`: ambient = materialColor × ambientCoefficient;
for every light, diffuse = materialColor × diffuseCoefficient ×
max(0, normal·lightDir) and specular = lightColor × specularCoefficient ×
max(0, viewDir·reflectDir)^shininess, the two summed and weighted by the
inverse-linear attenuation `1/(1+0.1·distance)`; the per-light terms are
added onto the ambient base as one sum, and each final component is clamped
to at most 1. -/
def computeColorSpec (m : Material) (hit : Hit) (s : Scene) (ray : Ray) : Color :=
  let ambient := m.color.scale m.ambientCoefficient
  let total := (s.lights.map (fun light =>
    let toLight := light.position.sub hit.position
    let lightDir := toLight.normalize
    let attenuation := 1 / (1 + 0.1 * toLight.length)
    let diffuse := m.color.scale (m.diffuseCoefficient * max 0 (hit.normal.dot lightDir))
    let reflectDir := reflectVec lightDir.neg hit.normal
    let viewDir := ray.dir.neg
    let specular := light.color.scale
      (m.specularCoefficient * Real.rpow (max 0 (viewDir.dot reflectDir)) m.shininess)
    (diffuse.add specular).scale attenuation)).foldr Color.add ⟨0, 0, 0⟩
  let c := ambient.add total
  ⟨min 1 c.r, min 1 c.g, min 1 c.b⟩

/-- An opaque diffuse material for concrete scenes. -/
def demoMat : Material := ⟨⟨1, 1, 1⟩, 0, 0, 1, 1/10, 7/10, 1/5, 10⟩

/-- A transparent, non-reflective material (transparency 1, refractive
index 2) for concrete refraction scenes. -/
def glassMat : Material := ⟨⟨1, 0, 0⟩, 0, 1, 2, 1/10, 0, 0, 1⟩

/-- A horizontal plane two units up. -/
def demoPlaneFar : Object := .plane ⟨0, 2, 0⟩ ⟨0, 1, 0⟩ demoMat

/-- A horizontal plane one unit up. -/
def demoPlaneNear : Object := .plane ⟨0, 1, 0⟩ ⟨0, 1, 0⟩ demoMat

/-- A scene with the two horizontal planes, farther one listed first. -/
def demoScene : Scene := ⟨[demoPlaneFar, demoPlaneNear], []⟩

/-- A ray from the origin straight up, meeting both demo planes. -/
def demoRay : Ray := ⟨⟨0, 0, 0⟩, ⟨0, 1, 0⟩⟩

/-- The hit of `demoRay` on the near plane. -/
def demoNearHit : Hit := ⟨⟨0, 1, 0⟩, ⟨0, 1, 0⟩, 1⟩

/-- A scene holding one transparent plane through the origin. -/
def tirScene : Scene := ⟨[Object.plane ⟨0, 0, 0⟩ ⟨0, 1, 0⟩ glassMat], []⟩

/-- A ray that strikes the transparent plane obliquely enough that the
refraction discriminant at index 2 is negative. -/
def tirRay : Ray := ⟨⟨0, 1, 0⟩, ⟨3/5, -4/5, 0⟩⟩

/-- The hit of `tirRay` on the transparent plane. -/
def tirHit : Hit := ⟨⟨3/4, 0, 0⟩, ⟨0, 1, 0⟩, 5/4⟩

/-- A scene with no shapes and no lights. -/
def emptyScene : Scene := ⟨[], []⟩

lemma Color.add_zero_right (c : Color) : c.add ⟨0, 0, 0⟩ = c := by
  cases c; simp [Color.add]

lemma Color.add_assoc_law (a b c : Color) : (a.add b).add c = a.add (b.add c) := by
  cases a; cases b; cases c; simp [Color.add, add_assoc]

/-- **C7.** `traceRay` with non-positive depth is exactly black, for any
scene; and whenever the scene query reports no intersection, `traceRay` is
exactly black at any depth. -/
theorem traceRay_black_cases (s : Scene) (ray : Ray) (depth : ℤ) (inside : Bool) :
    (depth ≤ 0 → traceRay s ray depth inside = ⟨0, 0, 0⟩) ∧
    (findClosestIntersection s ray = none → traceRay s ray depth inside = ⟨0, 0, 0⟩) := by
  constructor
  · intro h
    rw [traceRay]
    simp [h]
  · intro h
    rw [traceRay]
    by_cases hd : depth ≤ 0
    · simp [hd]
    · simp [hd, h]

/-- Witness for C7: in the empty scene, depth 0 gives black and a positive
depth with no intersections gives black. -/
theorem traceRay_black_cases_witness :
    ((0 : ℤ) ≤ 0 ∧ traceRay emptyScene demoRay 0 false = ⟨0, 0, 0⟩) ∧
    (findClosestIntersection emptyScene demoRay = none ∧
      traceRay emptyScene demoRay 5 false = ⟨0, 0, 0⟩) := by
  refine ⟨⟨le_refl 0, (traceRay_black_cases emptyScene demoRay 0 false).1 (le_refl 0)⟩, ?_, ?_⟩
  · simp [findClosestIntersection, emptyScene]
  · exact (traceRay_black_cases emptyScene demoRay 5 false).2
      (by simp [findClosestIntersection, emptyScene])

/-- **C10.** Any hit returned by `Plane.Intersect` carries the plane's
stored normal, unchanged — it is never flipped toward the ray origin. -/
theorem plane_hit_normal_is_stored (point normal : Vec) (ray : Ray) (h : Hit)
    (hh : planeIntersect point normal ray = some h) : h.normal = normal := by
  simp only [planeIntersect] at hh
  split_ifs at hh with h1 h2
  · obtain rfl := Option.some.inj hh
    rfl

/-- Witness for C10: a ray striking the plane `y = 0` from below — the back
side, `normal · direction = 1 > 0` — still receives the stored upward
normal, pointing away from the ray origin. -/
theorem plane_hit_normal_is_stored_witness :
    Vec.dot ⟨0, 1, 0⟩ (Ray.mk ⟨0, -1, 0⟩ ⟨0, 1, 0⟩).dir > 0 ∧
    planeIntersect ⟨0, 0, 0⟩ ⟨0, 1, 0⟩ ⟨⟨0, -1, 0⟩, ⟨0, 1, 0⟩⟩ =
      some ⟨⟨0, 0, 0⟩, ⟨0, 1, 0⟩, 1⟩ ∧
    Hit.normal ⟨⟨0, 0, 0⟩, ⟨0, 1, 0⟩, 1⟩ = ⟨0, 1, 0⟩ := by
  have heval : planeIntersect ⟨0, 0, 0⟩ ⟨0, 1, 0⟩ ⟨⟨0, -1, 0⟩, ⟨0, 1, 0⟩⟩ =
      some ⟨⟨0, 0, 0⟩, ⟨0, 1, 0⟩, 1⟩ := by
    norm_num [planeIntersect, Vec.dot, Vec.sub, Ray.at, Vec.add, Vec.scale]
  exact ⟨by norm_num [Vec.dot], heval,
    plane_hit_normal_is_stored _ _ _ _ heval⟩

/-- **C1.** `Sphere.Intersect` evaluated at a failing input: the unit sphere
at the origin and a ray starting at `(5,0,0)` pointing away from it along
`(1,0,0)`.  The quadratic has the two roots `-6` and `-4`, both behind the
origin, yet the code returns a hit with `t = -6 ≤ 1e-4` — it never checks
the root against zero or the 1e-4 epsilon. -/
theorem sphere_returns_negative_t :
    (sphereIntersect ⟨0, 0, 0⟩ 1 ⟨⟨5, 0, 0⟩, ⟨1, 0, 0⟩⟩).map Hit.t = some (-6) ∧
    (-6 : ℝ) ≤ 0.0001 := by
  constructor
  · have h4 : Real.sqrt 4 = 2 := by
      rw [show (4 : ℝ) = 2 ^ 2 by norm_num, Real.sqrt_sq (by norm_num : (0 : ℝ) ≤ 2)]
    norm_num [sphereIntersect, Vec.dot, Vec.sub, Ray.at, Vec.add, Vec.scale, Vec.normalize,
      h4]
  · norm_num

/-- **C5.** `Cylinder.Intersect` evaluated at a degenerate input: the unit
cylinder about the y-axis and the axis-parallel ray from `(3,0,0)` along
`(0,1,0)` — a ray that misses the cylinder entirely and makes the quadratic
coefficient `a = ray.Direction.X² + ray.Direction.Z²` zero.  The
discriminant is `b² = 0`, so the `discriminant < 0` miss path cannot
trigger and the unguarded division `(-b - √disc)/(2a)` is reached: the code
returns a hit (in Go, with `t = 0/0 = NaN`) instead of `nil`. -/
theorem cylinder_degenerate_returns_hit :
    (cylinderIntersect ⟨0, 0, 0⟩ 1 ⟨⟨3, 0, 0⟩, ⟨0, 1, 0⟩⟩).isSome = true := by
  norm_num [cylinderIntersect, Vec.dot, Vec.sub, Ray.at, Vec.add, Vec.scale, Vec.normalize]

lemma findStep_eq_none (ray : Ray) (acc : Option (Hit × Object)) (o : Object) :
    findStep ray acc o = none ↔ acc = none ∧ o.intersect ray = none := by
  unfold findStep
  cases ho : o.intersect ray with
  | none => simp [ho]
  | some h =>
    cases acc with
    | none => simp
    | some p =>
      obtain ⟨hb, ob⟩ := p
      by_cases hlt : h.t < hb.t <;> simp [hlt]

lemma foldl_findStep_eq_none (ray : Ray) (l : List Object) :
    ∀ acc, l.foldl (findStep ray) acc = none ↔
      acc = none ∧ ∀ o ∈ l, o.intersect ray = none := by
  induction l with
  | nil => intro acc; simp
  | cons p rest ih =>
    intro acc
    rw [List.foldl_cons, ih, findStep_eq_none]
    constructor
    · rintro ⟨⟨ha, hp⟩, hrest⟩
      exact ⟨ha, by simpa [hp] using hrest⟩
    · rintro ⟨ha, hall⟩
      exact ⟨⟨ha, hall p (by simp)⟩, fun o ho => hall o (by simp [ho])⟩

lemma foldl_findStep_min (ray : Ray) (l : List Object) :
    ∀ (acc : Option (Hit × Object)) (h : Hit) (o : Object),
      l.foldl (findStep ray) acc = some (h, o) →
      (acc = some (h, o) ∨ (o ∈ l ∧ o.intersect ray = some h)) ∧
      (∀ o' ∈ l, ∀ h', o'.intersect ray = some h' → h.t ≤ h'.t) ∧
      (∀ hb ob, acc = some (hb, ob) → h.t ≤ hb.t) := by
  induction l with
  | nil =>
    intro acc h o hf
    simp only [List.foldl_nil] at hf
    refine ⟨Or.inl hf, by simp, ?_⟩
    intro hb ob hacc
    rw [hf] at hacc
    obtain ⟨h1, -⟩ := Prod.mk.injEq _ _ _ _ ▸ Option.some.inj hacc
    rw [h1]
  | cons p rest ih =>
    intro acc h o hf
    rw [List.foldl_cons] at hf
    obtain ⟨horig, hmin, haccle⟩ := ih (findStep ray acc p) h o hf
    have hple : ∀ h0, p.intersect ray = some h0 → h.t ≤ h0.t := by
      intro h0 hp0
      cases acc with
      | none => exact haccle h0 p (by simp [findStep, hp0])
      | some q =>
        obtain ⟨hb, ob⟩ := q
        by_cases hlt : h0.t < hb.t
        · exact haccle h0 p (by simp [findStep, hp0, hlt])
        · exact le_trans (haccle hb ob (by simp [findStep, hp0, hlt])) (not_lt.mp hlt)
    refine ⟨?_, ?_, ?_⟩
    · rcases horig with h1 | h2
      · cases hp0 : p.intersect ray with
        | none => exact Or.inl (by simpa [findStep, hp0] using h1)
        | some h0 =>
          cases acc with
          | none =>
            simp only [findStep, hp0] at h1
            obtain ⟨hh, ho⟩ := Prod.mk.injEq _ _ _ _ ▸ Option.some.inj h1
            exact Or.inr ⟨by simp [← ho], by rw [← ho, hp0, hh]⟩
          | some q =>
            obtain ⟨hb, ob⟩ := q
            by_cases hlt : h0.t < hb.t
            · simp only [findStep, hp0, hlt, if_pos] at h1
              obtain ⟨hh, ho⟩ := Prod.mk.injEq _ _ _ _ ▸ Option.some.inj h1
              exact Or.inr ⟨by simp [← ho], by rw [← ho, hp0, hh]⟩
            · exact Or.inl (by simpa [findStep, hp0, hlt] using h1)
      · exact Or.inr ⟨by simp [h2.1], h2.2⟩
    · intro o' ho' h' hint
      rcases List.mem_cons.mp ho' with rfl | hmem
      · exact hple h' hint
      · exact hmin o' hmem h' hint
    · intro hb ob hacc
      subst hacc
      cases hp0 : p.intersect ray with
      | none => exact haccle hb ob (by simp [findStep, hp0])
      | some h0 =>
        by_cases hlt : h0.t < hb.t
        · exact le_trans (haccle h0 p (by simp [findStep, hp0, hlt])) (le_of_lt hlt)
        · exact haccle hb ob (by simp [findStep, hp0, hlt])

/-- **C3.** `FindClosestIntersection` reports no hit exactly when every
shape in the collection misses; and any returned `(hit, object)` pair is a
shape of the collection together with its own intersection result, whose
parameter `t` is minimal among the hits of all shapes in the collection. -/
theorem findClosest_min_hit (s : Scene) (ray : Ray) :
    (findClosestIntersection s ray = none ↔ ∀ o ∈ s.objects, o.intersect ray = none) ∧
    (∀ h o, findClosestIntersection s ray = some (h, o) →
      o ∈ s.objects ∧ o.intersect ray = some h ∧
      ∀ o' ∈ s.objects, ∀ h', o'.intersect ray = some h' → h.t ≤ h'.t) := by
  constructor
  · rw [findClosestIntersection, foldl_findStep_eq_none]
    simp
  · intro h o hf
    obtain ⟨horig, hmin, -⟩ := foldl_findStep_min ray s.objects none h o hf
    rcases horig with h1 | h2
    · exact absurd h1 (by simp)
    · exact ⟨h2.1, h2.2, hmin⟩

/-- Witness for C3: in the two-plane scene, the query returns the nearer
plane's hit (`t = 1`), that plane is in the collection with exactly that
intersection result, and its `t` is no larger than the farther plane's
(`t = 2`). -/
theorem findClosest_min_hit_witness :
    findClosestIntersection demoScene demoRay = some (demoNearHit, demoPlaneNear) ∧
    demoPlaneNear ∈ demoScene.objects ∧
    demoPlaneNear.intersect demoRay = some demoNearHit ∧
    demoNearHit.t ≤ Hit.t ⟨⟨0, 2, 0⟩, ⟨0, 1, 0⟩, 2⟩ := by
  have heval : findClosestIntersection demoScene demoRay =
      some (demoNearHit, demoPlaneNear) := by
    norm_num [findClosestIntersection, demoScene, demoRay, demoNearHit, demoPlaneNear,
      demoPlaneFar, findStep, Object.intersect, planeIntersect, Vec.dot, Vec.sub, Ray.at,
      Vec.add, Vec.scale]
  have hfar : Object.intersect demoPlaneFar demoRay = some ⟨⟨0, 2, 0⟩, ⟨0, 1, 0⟩, 2⟩ := by
    norm_num [demoRay, demoPlaneFar, Object.intersect, planeIntersect, Vec.dot, Vec.sub,
      Ray.at, Vec.add, Vec.scale]
  obtain ⟨hmem, hint, hmin⟩ := (findClosest_min_hit demoScene demoRay).2 _ _ heval
  exact ⟨heval, hmem, hint, hmin demoPlaneFar (by simp [demoScene]) _ hfar⟩

lemma foldl_add_eq_add_foldr (f : Light → Color) (l : List Light) :
    ∀ b : Color, l.foldl (fun acc light => acc.add (f light)) b =
      b.add ((l.map f).foldr Color.add ⟨0, 0, 0⟩) := by
  induction l with
  | nil => intro b; simp [Color.add_zero_right]
  | cons x rest ih =>
    intro b
    rw [List.foldl_cons, ih, List.map_cons, List.foldr_cons, Color.add_assoc_law]

/-- **C8.** `Material.ComputeColor` computes exactly the §4.4 formula:
materialColor × ambientCoefficient plus, over every light, (diffuse +
specular) × 1/(1+0.1·distance) with diffuse = materialColor ×
diffuseCoefficient × max(0, normal·lightDir) and specular = lightColor ×
specularCoefficient × max(0, viewDir·reflectDir)^shininess, each component
of the result clamped to at most 1. -/
theorem computeColor_matches_spec (m : Material) (hit : Hit) (s : Scene) (ray : Ray) :
    computeColor m hit s ray = computeColorSpec m hit s ray := by
  unfold computeColor computeColorSpec lightContribution
  rw [foldl_add_eq_add_foldr]

/-- **C2.** For a hit on a material with positive transparency: when the
refraction discriminant is non-positive (total internal reflection),
`traceRay` recurses at `depth - 1` on the internal reflection of the
incoming ray — origin at the hit point, direction `Reflect(dir, normal)` —
with the inside flag preserved, scales the result by the transparency and
adds it to the local (shaded plus reflective) color; when the discriminant
is positive it recurses on the Snell refraction ray with the inside flag
flipped, scaled and added the same way. -/
theorem traceRay_transparency_branch (s : Scene) (ray : Ray) (depth : ℤ) (inside : Bool)
    (hit : Hit) (obj : Object)
    (hd : 0 < depth)
    (hfind : findClosestIntersection s ray = some (hit, obj))
    (htr : 0 < obj.material.transparency) :
    (refractDisc ray.dir hit.normal obj.material.refractiveIndex ≤ 0 →
      traceRay s ray depth inside =
        (shadePlusReflect s ray depth inside hit obj).add
          ((traceRay s ⟨hit.position, reflectVec ray.dir hit.normal⟩ (depth - 1)
            inside).scale obj.material.transparency)) ∧
    (0 < refractDisc ray.dir hit.normal obj.material.refractiveIndex →
      traceRay s ray depth inside =
        (shadePlusReflect s ray depth inside hit obj).add
          ((traceRay s ⟨hit.position,
              refractVec ray.dir hit.normal obj.material.refractiveIndex⟩ (depth - 1)
            (!inside)).scale obj.material.transparency)) := by
  have hnle : ¬depth ≤ 0 := by omega
  constructor
  · intro hdisc
    rw [traceRay]
    simp only [hnle, dif_neg, not_false_iff, hfind]
    simp only [htr, if_pos, rayRefract, not_lt.mpr hdisc, if_neg, if_true]
    rfl
  · intro hdisc
    rw [traceRay]
    simp only [hnle, dif_neg, not_false_iff, hfind]
    simp only [htr, if_pos, rayRefract, hdisc, if_true]
    rfl

/-- Witness for C2: the oblique ray into the transparent plane at depth 1.
The refraction discriminant is `-11/25 ≤ 0`, so the trace equals the local
color plus the transparency-scaled recursive trace of the internal
reflection ray from the hit point, with the inside flag still `false`. -/
theorem traceRay_transparency_branch_witness :
    (0 : ℤ) < 1 ∧
    findClosestIntersection tirScene tirRay =
      some (tirHit, Object.plane ⟨0, 0, 0⟩ ⟨0, 1, 0⟩ glassMat) ∧
    0 < (Object.plane ⟨0, 0, 0⟩ ⟨0, 1, 0⟩ glassMat).material.transparency ∧
    refractDisc tirRay.dir tirHit.normal
      (Object.plane ⟨0, 0, 0⟩ ⟨0, 1, 0⟩ glassMat).material.refractiveIndex ≤ 0 ∧
    traceRay tirScene tirRay 1 false =
      (shadePlusReflect tirScene tirRay 1 false tirHit
          (Object.plane ⟨0, 0, 0⟩ ⟨0, 1, 0⟩ glassMat)).add
        ((traceRay tirScene ⟨tirHit.position, reflectVec tirRay.dir tirHit.normal⟩ 0
          false).scale (Object.plane ⟨0, 0, 0⟩ ⟨0, 1, 0⟩ glassMat).material.transparency) := by
  have hfind : findClosestIntersection tirScene tirRay =
      some (tirHit, Object.plane ⟨0, 0, 0⟩ ⟨0, 1, 0⟩ glassMat) := by
    have habs : |(4 : ℝ)/5| = 4/5 := abs_of_nonneg (by norm_num)
    norm_num [findClosestIntersection, tirScene, tirRay, tirHit, findStep,
      Object.intersect, planeIntersect, Vec.dot, Vec.sub, Ray.at, Vec.add, Vec.scale, habs]
  have htr : 0 < (Object.plane (⟨0, 0, 0⟩ : Vec) ⟨0, 1, 0⟩ glassMat).material.transparency := by
    norm_num [Object.material, glassMat]
  have hdisc : refractDisc tirRay.dir tirHit.normal
      (Object.plane (⟨0, 0, 0⟩ : Vec) ⟨0, 1, 0⟩ glassMat).material.refractiveIndex ≤ 0 := by
    norm_num [refractDisc, tirRay, tirHit, Vec.dot, Object.material, glassMat]
  exact ⟨by norm_num, hfind, htr, hdisc,
    (traceRay_transparency_branch tirScene tirRay 1 false tirHit _
      (by norm_num) hfind htr).1 hdisc⟩

/-- **C4 counterexample.** A camera whose `GetRay` always errors (the
spec's "invalid camera configuration" case), two samples per pixel: the
claim says each failing sample contributes black and the pixel is still
averaged and written — a written pixel always has alpha 255.  Instead the
pixel's goroutine returns at the first error, so the buffer slot keeps its
initial `⟨0,0,0,0⟩` (alpha 0): the pixel is never written at all. -/
theorem render_error_pixel_unwritten :
    renderPixelSlot (fun _ _ => none) emptyScene 5 (fun _ => (0, 0)) 2 2 0 0 2 =
      ⟨0, 0, 0, 0⟩ ∧
    (toRGBA ⟨0, 0, 0⟩).a = 255 := by
  constructor
  · simp [renderPixelSlot, renderPixel, sampleLoop]
  · simp [toRGBA]

/-- **C4 amended.** When `Camera.GetRay` errors on a sample, the per-pixel
goroutine returns immediately: the remaining samples of that pixel are
never traced and the pixel is never written, its buffer slot keeping the
zero value `⟨0,0,0,0⟩`; in particular an always-erroring camera leaves the
slot unwritten for any positive sample count.  (Only the rest of the
render — other pixels — continues.) -/
theorem render_error_aborts_pixel (cam : ℝ → ℝ → Option Ray) (s : Scene)
    (maxDepth : ℤ) (jitter : ℕ → ℝ × ℝ) (width height x y : ℕ) :
    (∀ idx remaining acc,
      cam (((x : ℝ) + (jitter idx).1) / ((width : ℝ) - 1))
          (((y : ℝ) + (jitter idx).2) / ((height : ℝ) - 1)) = none →
      sampleLoop cam s maxDepth jitter width height x y idx (remaining + 1) acc = none) ∧
    (∀ samples, (∀ u v, cam u v = none) → 0 < samples →
      renderPixelSlot cam s maxDepth jitter width height x y samples = ⟨0, 0, 0, 0⟩) := by
  have habort : ∀ idx remaining acc,
      cam (((x : ℝ) + (jitter idx).1) / ((width : ℝ) - 1))
          (((y : ℝ) + (jitter idx).2) / ((height : ℝ) - 1)) = none →
      sampleLoop cam s maxDepth jitter width height x y idx (remaining + 1) acc = none := by
    intro idx remaining acc herr
    rw [sampleLoop, herr]
  refine ⟨habort, ?_⟩
  intro samples hall hpos
  obtain ⟨r, rfl⟩ := Nat.exists_eq_succ_of_ne_zero (Nat.pos_iff_ne_zero.mp hpos)
  rw [renderPixelSlot, renderPixel, habort 0 r ⟨0, 0, 0⟩ (hall _ _)]
  rfl

/-- Witness for C4's amended statement: the always-erroring camera with two
samples leaves the slot at the zero value, and with the first sample
erroring the remaining one is never traced. -/
theorem render_error_aborts_pixel_witness :
    (fun (_ _ : ℝ) => (none : Option Ray)) 0 0 = none ∧
    sampleLoop (fun _ _ => none) emptyScene 5 (fun _ => (0, 0)) 2 2 0 0 0 2 ⟨0, 0, 0⟩ =
      none ∧
    (0 : ℕ) < 2 ∧
    renderPixelSlot (fun _ _ => none) emptyScene 5 (fun _ => (0, 0)) 2 2 0 0 2 =
      ⟨0, 0, 0, 0⟩ := by
  refine ⟨rfl, ?_, by norm_num, ?_⟩
  · exact (render_error_aborts_pixel (fun _ _ => none) emptyScene 5 (fun _ => (0, 0))
      2 2 0 0).1 0 1 ⟨0, 0, 0⟩ rfl
  · exact (render_error_aborts_pixel (fun _ _ => none) emptyScene 5 (fun _ => (0, 0))
      2 2 0 0).2 2 (fun _ _ => rfl) (by norm_num)

lemma axisSlab_fst (mn mx o d : ℝ) :
    (axisSlab mn mx o d).1 = (mn - o) / d ∨ (axisSlab mn mx o d).1 = (mx - o) / d := by
  simp only [axisSlab]
  split_ifs <;> simp

lemma axisSlab_snd (mn mx o d : ℝ) :
    (axisSlab mn mx o d).2 = (mn - o) / d ∨ (axisSlab mn mx o d).2 = (mx - o) / d := by
  simp only [axisSlab]
  split_ifs <;> simp

lemma cubeSlabs_cases (center : Vec) (sideLength : ℝ) (ray : Ray) (a b : ℝ)
    (h : cubeSlabs center sideLength ray = some (a, b)) :
    (a = (axisSlab (cubeMin center sideLength).x (cubeMax center sideLength).x
            ray.origin.x ray.dir.x).1 ∨
     a = (axisSlab (cubeMin center sideLength).y (cubeMax center sideLength).y
            ray.origin.y ray.dir.y).1 ∨
     a = (axisSlab (cubeMin center sideLength).z (cubeMax center sideLength).z
            ray.origin.z ray.dir.z).1) ∧
    (b = (axisSlab (cubeMin center sideLength).x (cubeMax center sideLength).x
            ray.origin.x ray.dir.x).2 ∨
     b = (axisSlab (cubeMin center sideLength).y (cubeMax center sideLength).y
            ray.origin.y ray.dir.y).2 ∨
     b = (axisSlab (cubeMin center sideLength).z (cubeMax center sideLength).z
            ray.origin.z ray.dir.z).2) := by
  simp only [cubeSlabs] at h
  split_ifs at h <;> simp_all

lemma cubeIntersect_some_elim (center : Vec) (sideLength : ℝ) (ray : Ray) (h : Hit)
    (hh : cubeIntersect center sideLength ray = some h) :
    ∃ a b, cubeSlabs center sideLength ray = some (a, b) ∧
      h.t = (if a < 0 then b else a) ∧ ¬h.t < 0 ∧
      h.position = ray.at h.t ∧
      h.normal = cubeNormalAt center sideLength h.position := by
  rcases hslab : cubeSlabs center sideLength ray with - | ⟨a, b⟩
  · rw [cubeIntersect, hslab] at hh
    exact absurd hh (by simp)
  · rw [cubeIntersect, hslab] at hh
    dsimp only at hh
    by_cases ht0 : (if a < 0 then b else a) < 0
    · rw [if_pos ht0] at hh
      exact absurd hh (by simp)
    · rw [if_neg ht0] at hh
      obtain rfl := Option.some.inj hh
      exact ⟨a, b, rfl, rfl, ht0, rfl, rfl⟩

lemma selectStep_le (c x : Vec × ℝ) :
    (if x.2 < c.2 then x else c).2 ≤ c.2 ∧ (if x.2 < c.2 then x else c).2 ≤ x.2 := by
  by_cases hlt : x.2 < c.2 <;> simp [hlt]
  · exact le_of_lt hlt
  · exact not_lt.mp hlt

lemma selectFold_le (l : List (Vec × ℝ)) :
    ∀ c : Vec × ℝ,
      (l.foldl (fun acc d => if d.2 < acc.2 then d else acc) c).2 ≤ c.2 ∧
      ∀ x ∈ l, (l.foldl (fun acc d => if d.2 < acc.2 then d else acc) c).2 ≤ x.2 := by
  induction l with
  | nil => intro c; simp
  | cons p rest ih =>
    intro c
    rw [List.foldl_cons]
    obtain ⟨h1, h2⟩ := ih (if p.2 < c.2 then p else c)
    obtain ⟨hc, hp⟩ := selectStep_le c p
    refine ⟨le_trans h1 hc, ?_⟩
    intro x hx
    rcases List.mem_cons.mp hx with rfl | hmem
    · exact le_trans h1 hp
    · exact h2 x hmem

lemma selectFold_mem (l : List (Vec × ℝ)) :
    ∀ c : Vec × ℝ, (l.foldl (fun acc d => if d.2 < acc.2 then d else acc) c) ∈ c :: l := by
  induction l with
  | nil => intro c; simp
  | cons p rest ih =>
    intro c
    rw [List.foldl_cons]
    have h := ih (if p.2 < c.2 then p else c)
    rcases List.mem_cons.mp h with heq | hmem
    · by_cases hlt : p.2 < c.2
      · rw [heq, if_pos hlt]; simp
      · rw [heq, if_neg hlt]; simp
    · simp [hmem]

lemma selectFace_spec (l : List (Vec × ℝ)) (hne : l ≠ []) :
    selectFace l ∈ l ∧ ∀ x ∈ l, (selectFace l).2 ≤ x.2 := by
  cases l with
  | nil => exact absurd rfl hne
  | cons c rest =>
    constructor
    · exact selectFold_mem rest c
    · intro x hx
      rcases List.mem_cons.mp hx with heq | hmem
      · rw [heq]; exact (selectFold_le rest c).1
      · exact (selectFold_le rest c).2 x hmem

lemma at_coord_x (ray : Ray) (w : ℝ) (hd : ray.dir.x ≠ 0) :
    (ray.at ((w - ray.origin.x) / ray.dir.x)).x = w := by
  simp only [Ray.at, Vec.add, Vec.scale]
  field_simp

lemma at_coord_y (ray : Ray) (w : ℝ) (hd : ray.dir.y ≠ 0) :
    (ray.at ((w - ray.origin.y) / ray.dir.y)).y = w := by
  simp only [Ray.at, Vec.add, Vec.scale]
  field_simp

lemma at_coord_z (ray : Ray) (w : ℝ) (hd : ray.dir.z ≠ 0) :
    (ray.at ((w - ray.origin.z) / ray.dir.z)).z = w := by
  simp only [Ray.at, Vec.add, Vec.scale]
  field_simp

lemma exists_zero_side (center : Vec) (sideLength : ℝ) (ray : Ray)
    (hx : ray.dir.x ≠ 0) (hy : ray.dir.y ≠ 0) (hz : ray.dir.z ≠ 0) (t : ℝ)
    (ht : (t = ((cubeMin center sideLength).x - ray.origin.x) / ray.dir.x ∨
           t = ((cubeMax center sideLength).x - ray.origin.x) / ray.dir.x) ∨
          (t = ((cubeMin center sideLength).y - ray.origin.y) / ray.dir.y ∨
           t = ((cubeMax center sideLength).y - ray.origin.y) / ray.dir.y) ∨
          (t = ((cubeMin center sideLength).z - ray.origin.z) / ray.dir.z ∨
           t = ((cubeMax center sideLength).z - ray.origin.z) / ray.dir.z)) :
    ∃ c ∈ faceCandidates center sideLength (ray.at t), c.2 = 0 := by
  rcases ht with (h1 | h2) | (h3 | h4) | (h5 | h6)
  · refine ⟨(⟨-1, 0, 0⟩, |(cubeMin center sideLength).x - (ray.at t).x|),
      by simp [faceCandidates], ?_⟩
    rw [h1, at_coord_x ray _ hx, sub_self, abs_zero]
  · refine ⟨(⟨1, 0, 0⟩, |(cubeMax center sideLength).x - (ray.at t).x|),
      by simp [faceCandidates], ?_⟩
    rw [h2, at_coord_x ray _ hx, sub_self, abs_zero]
  · refine ⟨(⟨0, -1, 0⟩, |(cubeMin center sideLength).y - (ray.at t).y|),
      by simp [faceCandidates], ?_⟩
    rw [h3, at_coord_y ray _ hy, sub_self, abs_zero]
  · refine ⟨(⟨0, 1, 0⟩, |(cubeMax center sideLength).y - (ray.at t).y|),
      by simp [faceCandidates], ?_⟩
    rw [h4, at_coord_y ray _ hy, sub_self, abs_zero]
  · refine ⟨(⟨0, 0, -1⟩, |(cubeMin center sideLength).z - (ray.at t).z|),
      by simp [faceCandidates], ?_⟩
    rw [h5, at_coord_z ray _ hz, sub_self, abs_zero]
  · refine ⟨(⟨0, 0, 1⟩, |(cubeMax center sideLength).z - (ray.at t).z|),
      by simp [faceCandidates], ?_⟩
    rw [h6, at_coord_z ray _ hz, sub_self, abs_zero]

/-- **C9.** For a ray with no zero direction component (the domain on which
the Go slab divisions are ordinary real divisions): every hit returned by
`Cube.Intersect` carries one of the six axis-aligned unit normals — the
one selected by the nearest-face argmin — and the hit position lies on
that selected face's plane within the 1e-4 epsilon (in fact exactly, the
distance being 0); the hit's `t` is the slab interval's `tmin` when
`tmin ≥ 0` and `tmax` otherwise, is never negative, and when both `tmin`
and `tmax` are negative no hit is returned. -/
theorem cube_hit_properties (center : Vec) (sideLength : ℝ) (ray : Ray)
    (hx : ray.dir.x ≠ 0) (hy : ray.dir.y ≠ 0) (hz : ray.dir.z ≠ 0) :
    (∀ h, cubeIntersect center sideLength ray = some h →
      h.normal ∈ sixNormals ∧
      h.normal = (selectFace (faceCandidates center sideLength h.position)).1 ∧
      (selectFace (faceCandidates center sideLength h.position)).2 ≤ 0.0001 ∧
      ∀ a b, cubeSlabs center sideLength ray = some (a, b) →
        h.t = (if a < 0 then b else a) ∧ 0 ≤ h.t) ∧
    (∀ a b, cubeSlabs center sideLength ray = some (a, b) → a < 0 → b < 0 →
      cubeIntersect center sideLength ray = none) := by
  constructor
  · intro h hh
    obtain ⟨a, b, hslab, hteq, ht0, hpos, hnorm⟩ := cubeIntersect_some_elim _ _ _ _ hh
    obtain ⟨hA, hB⟩ := cubeSlabs_cases _ _ _ _ _ hslab
    have htsix : (h.t = ((cubeMin center sideLength).x - ray.origin.x) / ray.dir.x ∨
          h.t = ((cubeMax center sideLength).x - ray.origin.x) / ray.dir.x) ∨
        (h.t = ((cubeMin center sideLength).y - ray.origin.y) / ray.dir.y ∨
          h.t = ((cubeMax center sideLength).y - ray.origin.y) / ray.dir.y) ∨
        (h.t = ((cubeMin center sideLength).z - ray.origin.z) / ray.dir.z ∨
          h.t = ((cubeMax center sideLength).z - ray.origin.z) / ray.dir.z) := by
      by_cases ha : a < 0
      · have htb : h.t = b := by rw [hteq, if_pos ha]
        rw [htb]
        rcases hB with h1 | h1 | h1 <;> rw [h1]
        · exact Or.inl (axisSlab_snd _ _ _ _)
        · exact Or.inr (Or.inl (axisSlab_snd _ _ _ _))
        · exact Or.inr (Or.inr (axisSlab_snd _ _ _ _))
      · have hta : h.t = a := by rw [hteq, if_neg ha]
        rw [hta]
        rcases hA with h1 | h1 | h1 <;> rw [h1]
        · exact Or.inl (axisSlab_fst _ _ _ _)
        · exact Or.inr (Or.inl (axisSlab_fst _ _ _ _))
        · exact Or.inr (Or.inr (axisSlab_fst _ _ _ _))
    obtain ⟨c, hcmem, hczero⟩ := exists_zero_side center sideLength ray hx hy hz h.t htsix
    rw [← hpos] at hcmem
    have hne : faceCandidates center sideLength h.position ≠ [] := by
      simp [faceCandidates]
    obtain ⟨hmem, hle⟩ := selectFace_spec (faceCandidates center sideLength h.position) hne
    refine ⟨?_, ?_, ?_, ?_⟩
    · have h1 : (selectFace (faceCandidates center sideLength h.position)).1 ∈
          (faceCandidates center sideLength h.position).map Prod.fst :=
        List.mem_map_of_mem Prod.fst hmem
      have h2 : (faceCandidates center sideLength h.position).map Prod.fst = sixNormals := by
        simp [faceCandidates, sixNormals]
      rw [h2] at h1
      rw [hnorm, cubeNormalAt]
      exact h1
    · rw [hnorm, cubeNormalAt]
    · have h3 := hle c hcmem
      rw [hczero] at h3
      linarith
    · intro a' b' hs'
      rw [hslab] at hs'
      obtain ⟨rfl, rfl⟩ := Prod.mk.injEq _ _ _ _ ▸ Option.some.inj hs'
      exact ⟨hteq, not_lt.mp ht0⟩
  · intro a b hs ha hb
    rw [cubeIntersect, hs]
    dsimp only
    rw [if_pos ha, if_pos hb]

/-- Witness for C9: the side-2 cube at the origin and the ray from
`(-2,0,0)` along `(1,1/4,1/4)` — all direction components nonzero.  The
hit is at `t = 1`, position `(-1,1/4,1/4)` on the `x = -1` face, normal
`(-1,0,0)`, with the selected face distance 0 ≤ 1e-4. -/
theorem cube_hit_properties_witness :
    ((⟨⟨-2, 0, 0⟩, ⟨1, 1/4, 1/4⟩⟩ : Ray).dir.x ≠ 0 ∧
     (⟨⟨-2, 0, 0⟩, ⟨1, 1/4, 1/4⟩⟩ : Ray).dir.y ≠ 0 ∧
     (⟨⟨-2, 0, 0⟩, ⟨1, 1/4, 1/4⟩⟩ : Ray).dir.z ≠ 0) ∧
    cubeIntersect ⟨0, 0, 0⟩ 2 ⟨⟨-2, 0, 0⟩, ⟨1, 1/4, 1/4⟩⟩ =
      some ⟨⟨-1, 1/4, 1/4⟩, ⟨-1, 0, 0⟩, 1⟩ ∧
    Hit.normal ⟨⟨-1, 1/4, 1/4⟩, ⟨-1, 0, 0⟩, 1⟩ ∈ sixNormals ∧
    (selectFace (faceCandidates ⟨0, 0, 0⟩ 2
      (Hit.position ⟨⟨-1, 1/4, 1/4⟩, ⟨-1, 0, 0⟩, 1⟩))).2 ≤ 0.0001 ∧
    0 ≤ Hit.t ⟨⟨-1, 1/4, 1/4⟩, ⟨-1, 0, 0⟩, 1⟩ := by
  have hx : (⟨⟨-2, 0, 0⟩, ⟨1, 1/4, 1/4⟩⟩ : Ray).dir.x ≠ 0 := by norm_num
  have hy : (⟨⟨-2, 0, 0⟩, ⟨1, 1/4, 1/4⟩⟩ : Ray).dir.y ≠ 0 := by norm_num
  have hz : (⟨⟨-2, 0, 0⟩, ⟨1, 1/4, 1/4⟩⟩ : Ray).dir.z ≠ 0 := by norm_num
  have ha1 : |(-(5 : ℝ)/4)| = 5/4 := by rw [abs_of_nonpos (by norm_num)]; norm_num
  have ha2 : |((3 : ℝ)/4)| = 3/4 := abs_of_nonneg (by norm_num)
  have ha3 : |((2 : ℝ))| = 2 := abs_of_nonneg (by norm_num)
  have ha4 : |((5 : ℝ)/4)| = 5/4 := abs_of_nonneg (by norm_num)
  have heval : cubeIntersect ⟨0, 0, 0⟩ 2 ⟨⟨-2, 0, 0⟩, ⟨1, 1/4, 1/4⟩⟩ =
      some ⟨⟨-1, 1/4, 1/4⟩, ⟨-1, 0, 0⟩, 1⟩ := by
    norm_num [cubeIntersect, cubeSlabs, axisSlab, cubeMin, cubeMax, cubeNormalAt,
      faceCandidates, selectFace, Vec.sub, Vec.add, Ray.at, Vec.scale, ha1, ha2, ha3, ha4]
  obtain ⟨hn, -, hsel, hrest⟩ :=
    (cube_hit_properties ⟨0, 0, 0⟩ 2 ⟨⟨-2, 0, 0⟩, ⟨1, 1/4, 1/4⟩⟩ hx hy hz).1 _ heval
  have hslabs : cubeSlabs ⟨0, 0, 0⟩ 2 ⟨⟨-2, 0, 0⟩, ⟨1, 1/4, 1/4⟩⟩ = some (1, 3) := by
    norm_num [cubeSlabs, axisSlab, cubeMin, cubeMax, Vec.sub, Vec.add]
  exact ⟨⟨hx, hy, hz⟩, heval, hn, hsel, (hrest 1 3 hslabs).2⟩
